import Mathlib

/-!
Verification of the antenna-array computation engine
(`src/backend/linear_array.py` and `src/backend/planar_array.py`).

The numerical kernel is shallowly embedded in Lean:

* exact branches and index arithmetic (grid sizing, taper selection,
  constructor validation, the peak/SLL/HPBW extractor, pattern cuts) are
  embedded over `ℚ`, so that concrete runs are decidable;
* the transcendental array-factor mathematics (complex exponential sums,
  the cosine element pattern, normalisation) is embedded over `ℝ`/`ℂ`.

Python/numpy semantics that the embedding reproduces are documented at
each definition: `int()` truncation (equal to `Int.floor` on the
non-negative values that arise), float `%` with a positive modulus,
`np.argmax`/`np.argmin` returning the first extremal index, numpy negative
indexing, half-open slicing, and Python truthiness of numbers, strings and
arrays (`if x:` is false for `0`, `None`, `""`, `[]`, and `any(v)` is true
iff some entry is nonzero).
-/

namespace AntennaArray

attribute [local semireducible] Rat.add Rat.sub Rat.mul Rat.inv Rat.ofScientific

/-! ### List and rational utilities shared by the embedded functions -/

/-- Value-level model of `numpy.linspace(a, b, n)`: `n` equally spaced
samples from `a` to `b` inclusive.  For `n = 1` numpy returns `[a]`, which
the formula reproduces because `x / 0 = 0` in `ℚ`. -/
def linspaceQ (a b : ℚ) (n : ℕ) : List ℚ :=
  (List.range n).map (fun i : ℕ => a + (b - a) * (i : ℚ) / ((n : ℚ) - 1))

/-- Model of `np.mean` on a 1-D array. -/
def meanQ (l : List ℚ) : ℚ := l.sum / l.length

/-- Model of `np.max` on a 1-D array (`0` in the empty case, in which
numpy raises instead; callers that care model the raise explicitly). -/
def maxQ : List ℚ → ℚ
  | [] => 0
  | x :: xs => xs.foldl max x

/-- Model of `np.min` on a 1-D array. -/
def minQ : List ℚ → ℚ
  | [] => 0
  | x :: xs => xs.foldl min x

/-- Model of `np.argmax`: index of the first occurrence of the maximum. -/
def argmaxQ (l : List ℚ) : ℕ := l.findIdx (fun x => decide (x = maxQ l))

/-- Model of `np.argmin`: index of the first occurrence of the minimum. -/
def argminQ (l : List ℚ) : ℕ := l.findIdx (fun x => decide (x = minQ l))

/-- Model of `np.cumsum`, with an explicit running total. -/
def cumsumFrom (a : ℚ) : List ℚ → List ℚ
  | [] => []
  | x :: xs => (a + x) :: cumsumFrom (a + x) xs

/-- Model of `np.sign` on rationals. -/
def npSign (x : ℚ) : ℚ := if x < 0 then -1 else if x = 0 then 0 else 1

/-- Model of `np.diff`: adjacent differences. -/
def diffsQ (l : List ℚ) : List ℚ := List.zipWith (fun a b => b - a) l l.tail

/-- Python truthiness of `any(v)` for a numeric array: some entry nonzero. -/
def anyNonzeroQ (l : List ℚ) : Bool := l.any (fun x => decide (x ≠ 0))

/-- Python float `%` for a positive modulus: `a % b = a - b * ⌊a / b⌋`,
with result in `[0, b)`. -/
def qmod (a b : ℚ) : ℚ := a - b * ⌊a / b⌋

/-! ### Claim C4: amplitude-taper selection in `calc_AF`

`linear_array.py` lines 75–83 (and identically `planar_array.py` lines
122–134, applied once per axis of a rectangular grid):

    self.I = np.ones(...)
    if self.window:
        self.I = get_window(self.window, ...)
    if self.SLL:
        if self.SLL < 50:
            self.I = taylor(..., nbar=5, sll=self.SLL)
        else:
            self.I = chebwin(..., self.SLL)

The scipy window synthesis routines are external library code; the
repository's own logic is which routine is chosen and with which
parameters, captured by the `Taper` descriptor.  `if self.window:` and
`if self.SLL:` are Python truthiness tests: `None`, `""` and `0` all skip
the branch. -/

/-- Descriptor of the amplitude taper `calc_AF` settles on. -/
inductive Taper where
  | uniform : Taper
  | window : String → Taper
  | taylor : ℕ → ℚ → Taper
  | cheb : ℚ → Taper
deriving DecidableEq

/-- Taper dispatch of `calc_AF`, translated branch by branch from the
source (see the section comment). -/
def selectTaper (window : Option String) (sll : Option ℚ) : Taper :=
  let t0 := Taper.uniform
  let t1 := match window with
    | some w => if w ≠ "" then Taper.window w else t0
    | none => t0
  match sll with
  | some s =>
      if s ≠ 0 then (if s < 50 then Taper.taylor 5 s else Taper.cheb s) else t1
  | none => t1

/-! ### Claim C5 / C10: angular-grid auto-sizing

`linear_array.py` lines 87–93:

    if not any(self.theta):
        HPBW = 51 / array_length
        Nt = int(180 / (HPBW / 2))
        if Nt % 2 == 0:
            Nt = Nt + 1
        Nt = max(Nt,181)
        self.theta = np.linspace(-90,90,Nt)

`planar_array.py` lines 95–103:

    if not any(self.theta):
        HPBW = 51 / array_length
        Nt = int(180 / (HPBW / 4))
        Nt = Nt + (Nt+1) % 2
        Nt = max(Nt,181)
        self.theta = np.linspace(0,180,Nt)
    if not any(self.phi):
        self.phi = np.linspace(0,360,2 * Nt-1)

The aperture length (`array_length`) is passed in as a rational parameter
`L`; for the planar case the source computes it as a bounding-box
diagonal, which only enters these formulas through its value.  `int()`
truncates toward zero, which agrees with `Int.floor` on the non-negative
values these expressions take (even at `L = 0`, where numpy's `51/0 = inf`
makes `int(180/(inf/2)) = 0` while `ℚ`'s `51/0 = 0` makes
`⌊180/(0/2)⌋ = ⌊180/0⌋ = 0`: both give `0`). -/

/-- Model of `if Nt % 2 == 0: Nt = Nt + 1` (linear engine). -/
def oddUpLinear (n : ℤ) : ℤ := if n % 2 = 0 then n + 1 else n

/-- Model of `Nt = Nt + (Nt+1) % 2` (planar engine; Python `%` on a
positive modulus agrees with `Int.emod`). -/
def oddUpPlanar (n : ℤ) : ℤ := n + (n + 1) % 2

/-- Linear auto-sized theta point count. -/
def linearAutoNt (L : ℚ) : ℤ :=
  max (oddUpLinear ⌊(180 : ℚ) / (51 / L / 2)⌋) 181

/-- Planar auto-sized theta point count. -/
def planarAutoNt (L : ℚ) : ℤ :=
  max (oddUpPlanar ⌊(180 : ℚ) / (51 / L / 4)⌋) 181

/-- Linear auto-sized theta grid. -/
def linearAutoTheta (L : ℚ) : List ℚ := linspaceQ (-90) 90 (linearAutoNt L).toNat

/-- Planar auto-sized theta grid. -/
def planarAutoTheta (L : ℚ) : List ℚ := linspaceQ 0 180 (planarAutoNt L).toNat

/-- Planar auto-sized phi grid (built from the theta point count `Nt`). -/
def planarAutoPhi (L : ℚ) : List ℚ :=
  linspaceQ 0 360 (2 * planarAutoNt L - 1).toNat

/-- Grid-defaulting logic of `PlanarArray.__init__` (lines 96–103).  The
phi default reads the local `Nt`, which Python only binds on the branch
where theta was auto-sized; on the other flow `np.linspace(0,360,2*Nt-1)`
raises `NameError`, modelled as `none`. -/
def planarGridDefaults (theta phi : List ℚ) (L : ℚ) : Option (List ℚ × List ℚ) :=
  if anyNonzeroQ theta then
    if anyNonzeroQ phi then some (theta, phi)
    else none
  else
    some (planarAutoTheta L, if anyNonzeroQ phi then phi else planarAutoPhi L)

/-! ### Claim C8: `PlanarArray.pattern_cut` (planar_array.py lines 215–221)

    def pattern_cut(self,cut_angle):
        cut_angle = cut_angle % 360
        G = db20(self.AF)
        theta_cut = np.hstack((-np.flip(self.theta[1:]), self.theta))
        idx_phi_cut1 = np.argmin(np.abs(self.phi - cut_angle))
        idx_phi_cut2 = np.argmin(np.abs(self.phi - ((180 + cut_angle)%360)))
        return theta_cut , np.hstack((np.flip(G[idx_phi_cut2,1:]), G[idx_phi_cut1,:]))

The gain matrix `G = db20(self.AF)` (rows indexed by phi, columns by
theta) is passed in already converted to dB: the claim quantifies over
arrays with a computed AF, and the cut logic reads `AF` only through `G`.
Out-of-range row lookups return `[]` via `getD`; `argminQ` picks the first
minimising index exactly as `np.argmin` does. -/

/-- Shallow embedding of `PlanarArray.pattern_cut`. -/
def patternCut (theta phi : List ℚ) (G : List (List ℚ)) (cutAngle : ℚ) :
    List ℚ × List ℚ :=
  let c := qmod cutAngle 360
  let thetaCut := (theta.tail.reverse.map (fun x => -x)) ++ theta
  let i1 := argminQ (phi.map (fun p => |p - c|))
  let i2 := argminQ (phi.map (fun p => |p - qmod (180 + c) 360|))
  (thetaCut, (G.getD i2 []).tail.reverse ++ G.getD i1 [])

/-! ### Claim C2: the peak/SLL/HPBW extractor

`LinearArray.calc_peak_sll_hpbw` (linear_array.py lines 119–143) and
`PlanarArray.calc_peak_sll_hpbw` (planar_array.py lines 224–255) share the
same algorithm; the planar version first takes a pattern cut, restricts it
to the `[-90, 90]` window, uses sentinels `-1`/`-100` instead of
`0`/`100`, and rounds the four outputs to one decimal.

The embedding returns `none` exactly where Python raises an uncaught
exception:

* `np.max` / `theta_deg[idx_peak]` on an empty or too-short input
  (`ValueError` / `IndexError`, outside any `try`);
* `np.asarray(cs_idx == idx_peak).nonzero()[0][0]` when the peak index is
  not a detected crossing (`IndexError`, outside any `try`);
* `cs_idx[idx_+1]` when the peak is the last crossing (`IndexError`,
  outside any `try`).

The two `try/except` blocks in the source are modelled by total
`if`/`match` fallbacks to the sentinel values: every operation inside them
that can raise (`np.argmin`/`np.max` of an empty slice, `theta_deg[...]`
out of range) is checked explicitly.  `cs_idx[idx_-1]` with `idx_ = 0` is
numpy negative indexing and wraps to the last element. -/

/-- The array `dG_cs` of linear_array.py lines 125–127: derivative sign
products with sentinel crossings appended at both ends. -/
def crossingList (G : List ℚ) : List ℚ :=
  let dG := (diffsQ G).map npSign
  1 :: (List.zipWith (fun a b => -(a * b)) dG dG.tail ++ [1])

/-- The array `cs_idx`: indices where `dG_cs == 1` (peaks and nulls). -/
def crossingIdx (G : List ℚ) : List ℕ :=
  (List.range (crossingList G).length).filter
    (fun i => decide ((crossingList G).getD i 0 = 1))

/-- Model of `np.asarray(l == v).nonzero()[0][0]`: the first position in
`l` holding `v`, or `none` for the uncaught `IndexError`. -/
def firstIdxEq : List ℕ → ℕ → Option ℕ
  | [], _ => none
  | x :: xs, v => if x = v then some 0 else (firstIdxEq xs v).map (· + 1)

/-- Model of `cs_idx[idx_ - 1]`: for `idx_ = 0` numpy's `-1` wraps to the
last element; for `idx_ ≥ 1` the index is in range (the `getD` default is
never reached). -/
def nullLIndex (csIdx : List ℕ) (j : ℕ) : ℕ :=
  if j = 0 then csIdx.getLastD 0 else csIdx.getD (j - 1) 0

/-- The first `try` block (−3 dB search).  Python evaluates the right
slice's `argmin`, then the left slice's, then the two theta lookups; an
exception at any of these points yields the sentinel. -/
def hpbwOf (G theta : List ℚ) (sent peak : ℚ) (idxPeak idxNullL idxNullR : ℕ) : ℚ :=
  let sliceR := (G.drop idxPeak).take (idxNullR - idxPeak)
  let sliceL := (G.drop idxNullL).take (idxPeak - idxNullL)
  if sliceR = [] ∨ sliceL = [] then sent
  else
    match theta.get? (idxPeak + argminQ (sliceR.map (fun g => |g - peak + 3|))),
        theta.get? (idxNullL + argminQ (sliceL.map (fun g => |g - peak + 3|))) with
    | some tr, some tl => tr - tl
    | some _, none => sent
    | none, _ => sent

/-- The second `try` block (sidelobe level outside the null bracket). -/
def sllOf (G : List ℚ) (sent peak : ℚ) (idxNullL idxNullR : ℕ) : ℚ :=
  if G.take idxNullL = [] ∨ G.drop idxNullR = [] then sent
  else peak - max (maxQ (G.take idxNullL)) (maxQ (G.drop idxNullR))

/-- The shared peak/SLL/HPBW algorithm, parameterised by the two sentinel
values (`0`/`100` linear, `-1`/`-100` planar).  Returns
`(Gain, Peak_Angle, SLL, HPBW)`, or `none` for an uncaught exception. -/
def peakCore (G theta : List ℚ) (hpbwSent sllSent : ℚ) :
    Option (ℚ × ℚ × ℚ × ℚ) :=
  if G = [] then none
  else
    (theta.get? (argmaxQ G)).bind fun thetaPeak =>
      (firstIdxEq (crossingIdx G) (argmaxQ G)).bind fun j =>
        ((crossingIdx G).get? (j + 1)).map fun idxNullR =>
          (maxQ G, thetaPeak,
            sllOf G sllSent (maxQ G) (nullLIndex (crossingIdx G) j) idxNullR,
            hpbwOf G theta hpbwSent (maxQ G) (argmaxQ G)
              (nullLIndex (crossingIdx G) j) idxNullR)

/-- Shallow embedding of `LinearArray.calc_peak_sll_hpbw`, as a function
of the dB gain curve `G = db20(self.AF)` and the theta axis. -/
def linearCalcPeakSllHpbw (G theta : List ℚ) : Option (ℚ × ℚ × ℚ × ℚ) :=
  peakCore G theta 0 100

/-- Round half to even (banker's rounding), the idealised model over `ℚ`
of Python's `float(f'\x7bv:1.1f\x7d')` decimal formatting. -/
def roundHalfEven (x : ℚ) : ℤ :=
  if x - ⌊x⌋ < 1 / 2 then ⌊x⌋
  else if x - ⌊x⌋ > 1 / 2 then ⌊x⌋ + 1
  else if ⌊x⌋ % 2 = 0 then ⌊x⌋ else ⌊x⌋ + 1

/-- Rounding to one decimal place, as applied to the four planar pattern
parameters. -/
def roundTenth (x : ℚ) : ℚ := (roundHalfEven (10 * x) : ℚ) / 10

/-- Shallow embedding of `PlanarArray.calc_peak_sll_hpbw`: pattern cut,
restriction of the cut to the `[-90, 90]` theta window, the shared
algorithm with planar sentinels, then rounding to one decimal.  (When the
spliced theta axis is empty `np.argmin` raises; in that flow the gain
curve reaching `peakCore` forces `none` as well, so the `none` cases
coincide with Python's uncaught exceptions.) -/
def planarCalcPeakSllHpbw (theta phi : List ℚ) (G : List (List ℚ))
    (cutAngle : ℚ) : Option (ℚ × ℚ × ℚ × ℚ) :=
  let tc := patternCut theta phi G cutAngle
  let im90 := argminQ (tc.1.map (fun x => |x + 90|))
  let ip90 := argminQ (tc.1.map (fun x => |x - 90|))
  let td2 := (tc.1.drop im90).take (ip90 + 1 - im90)
  let g2 := (tc.2.drop im90).take (ip90 + 1 - im90)
  (peakCore g2 td2 (-1) (-100)).map
    (fun q => (roundTenth q.1, roundTenth q.2.1, roundTenth q.2.2.1,
      roundTenth q.2.2.2))

/-! ### Claims C3 and C7: the two constructors

`LinearArray.__init__` (linear_array.py lines 44–63):

    assert num_elem > 0 , ('num_elem must be > 0  ')
    ...
    if isinstance(self.element_spacing,(int,float)):
        assert element_spacing > 0 , ('element_spacing must be > 0  ')
        self.X = np.linspace(0,self.num_elem-1,self.num_elem) * self.element_spacing
    elif isinstance(self.element_spacing,Iterable):
        self.X = np.insert(np.cumsum(element_spacing),0,0)
        self.num_elem = len(self.X)
    else:
        assert False, ('Invalid element_spacing')
    self.X = self.X - np.mean(self.X)

The scalar/iterable `isinstance` dispatch is a typed variant here, which
makes the final `assert False` branch (non-numeric, non-iterable spacing)
unrepresentable; the spacing deltas of the iterable branch are accepted
without any validation.  A failed `assert` is `Except.error`.

`PlanarArray.__init__` (planar_array.py lines 49–85) dispatches on the
shape tag: `rect`/`tri` assert positive element counts (but never check
the spacings), `circ` and `other` perform no validation at all, and an
unrecognised tag raises.  Positions are embedded over `ℝ` because the
`circ` branch places elements with cosine/sine; no planar branch
re-centers the stored positions (only plotting code subtracts the mean).
-/

/-- Typed variant of the scalar-vs-iterable spacing dispatch. -/
inductive LinSpacing where
  | scalar : ℚ → LinSpacing
  | deltas : List ℚ → LinSpacing

/-- The re-centering `self.X = self.X - np.mean(self.X)` of the linear
constructor (applied on both spacing branches). -/
def centerQ (l : List ℚ) : List ℚ := l.map (fun x => x - meanQ l)

/-- Shallow embedding of `LinearArray.__init__`, returning the stored
element positions `self.X` or the failed assertion's message. -/
def linearInit (numElem : ℤ) (spacing : LinSpacing) : Except String (List ℚ) :=
  if numElem ≤ 0 then Except.error "num_elem must be > 0" else
  match spacing with
  | LinSpacing.scalar d =>
      if d ≤ 0 then Except.error "element_spacing must be > 0"
      else Except.ok (centerQ ((List.range numElem.toNat).map (fun k : ℕ => (k : ℚ) * d)))
  | LinSpacing.deltas l => Except.ok (centerQ (0 :: cumsumFrom 0 l))

/-- Planar `array_shape` descriptor.  `badTag` stands for any tag other
than the four recognised ones. -/
inductive ArrayShape where
  | rect : ℤ × ℤ → ℝ × ℝ → ArrayShape
  | tri : ℤ × ℤ → ℝ × ℝ → ArrayShape
  | circ : List ℕ → List ℝ → ArrayShape
  | other : List ℝ → List ℝ → ArrayShape
  | badTag : String → ArrayShape

/-- Positions of the `rect`/`tri` branch.  `row`/`col` are the scaled
arithmetic sequences, `[Y,X] = np.meshgrid(row,col)` gives
`X[i,j] = col[i]`, `Y[i,j] = row[j]` with shape `(cols, rows)`,
`X[:,0::2] += d_[shape]*spacing[1]` shifts the even `j` entries by
`triOffset * spacing.2` (`triOffset` is `0` for `rect`, `1/2` for `tri`),
and both arrays are flattened row-major. -/
noncomputable def rectTriXY (triOffset : ℝ) (numElem : ℤ × ℤ) (spacing : ℝ × ℝ) :
    List ℝ × List ℝ :=
  ((List.range numElem.2.toNat).flatMap (fun i : ℕ =>
      (List.range numElem.1.toNat).map (fun j : ℕ =>
        (i : ℝ) * spacing.2 + (if j % 2 = 0 then triOffset * spacing.2 else 0))),
   (List.range numElem.2.toNat).flatMap (fun _i : ℕ =>
      (List.range numElem.1.toNat).map (fun j : ℕ => (j : ℝ) * spacing.1)))

/-- Positions of the `circ` branch: ring `idx` places its `n` elements at
angles `np.linspace(0, 2π, n+1)[:-1]`, i.e. `2πk/n` for `k < n`, on the
circle of radius `radius[idx]`.  (`getD` models `radius[idx]`; Python
would raise `IndexError` on a short radius list, which no settled claim
exercises.) -/
noncomputable def circXY (ns : List ℕ) (rs : List ℝ) : List ℝ × List ℝ :=
  ((List.range ns.length).flatMap (fun idx : ℕ =>
      (List.range (ns.getD idx 0)).map (fun k : ℕ =>
        rs.getD idx 0 * Real.cos (2 * Real.pi * (k : ℝ) / ((ns.getD idx 0 : ℕ) : ℝ)))),
   (List.range ns.length).flatMap (fun idx : ℕ =>
      (List.range (ns.getD idx 0)).map (fun k : ℕ =>
        rs.getD idx 0 * Real.sin (2 * Real.pi * (k : ℝ) / ((ns.getD idx 0 : ℕ) : ℝ)))))

/-- Shallow embedding of `PlanarArray.__init__` (geometry part),
returning the stored `(self.X, self.Y)` or the raised error. -/
noncomputable def planarInit : ArrayShape → Except String (List ℝ × List ℝ)
  | ArrayShape.rect ne sp =>
      if ne.1 ≤ 0 then Except.error "array length can not be zero"
      else if ne.2 ≤ 0 then Except.error "array length can not be zero"
      else Except.ok (rectTriXY 0 ne sp)
  | ArrayShape.tri ne sp =>
      if ne.1 ≤ 0 then Except.error "array length can not be zero"
      else if ne.2 ≤ 0 then Except.error "array length can not be zero"
      else Except.ok (rectTriXY (1 / 2) ne sp)
  | ArrayShape.circ ns rs => Except.ok (circXY ns rs)
  | ArrayShape.other X Y => Except.ok (X, Y)
  | ArrayShape.badTag t =>
      Except.error (t ++ " is not a valid planar array shape ")

/-- Python truthiness of a constructor outcome: did it return normally? -/
def exceptOk {α : Type} : Except String α → Bool
  | Except.ok _ => true
  | Except.error _ => false

/-- Model of `np.mean` over the reals. -/
noncomputable def meanR (l : List ℝ) : ℝ := l.sum / l.length

/-! ### Claim C6: the cosine element-pattern envelope

Linear engine (`calc_AF_`, linear_array.py lines 112–113):

    if self.element_pattern:
        AF = AF * np.cos(np.radians(theta))

— no clipping of any kind.  Planar rect path (planar_array.py lines
154–156): `cos_theta = np.cos(np.radians(T)); cos_theta[T>89] =
np.cos(np.radians(89.0))`.  Planar general path (lines 180–182): the same
with replacement value `np.cos(np.radians(89.5))`. -/

/-- Model of `np.radians`: degrees to radians. -/
noncomputable def radians (θ : ℝ) : ℝ := θ * Real.pi / 180

/-- Per-sample element-pattern multiplier of the linear engine: the raw
cosine, with no clipping. -/
noncomputable def linearElemFactor (θ : ℝ) : ℝ := Real.cos (radians θ)

open Classical in
/-- Per-sample element-pattern multiplier of the planar rectangular path:
entries with `T > 89` are overwritten with `cos(radians(89.0))`. -/
noncomputable def planarRectElemFactor (θ : ℝ) : ℝ :=
  if 89 < θ then Real.cos (radians 89) else Real.cos (radians θ)

open Classical in
/-- Per-sample element-pattern multiplier of the planar general path:
entries with `T > 89` are overwritten with `cos(radians(89.5))`. -/
noncomputable def planarGenElemFactor (θ : ℝ) : ℝ :=
  if 89 < θ then Real.cos (radians 89.5) else Real.cos (radians θ)

/-! ### Claims C1 and C9: the array-factor computation

`LinearArray.calc_AF` (linear_array.py lines 70–97) and
`LinearArray.calc_AF_` (lines 99–117):

    array_length = max(self.X) - min(self.X)
    self.P = -2 * PI * self.X * np.sin(np.radians(self.scan_angle))
    self.I = np.ones(self.X.shape)
    if self.window: self.I = get_window(self.window, self.num_elem)
    if self.SLL: ... taylor/chebwin ...
    if not any(self.theta):
        ... auto-size ...; self.theta = np.linspace(-90,90,Nt)
    self.AF = self.calc_AF_()

    def calc_AF_(self):
        self.X = self.X.reshape(1,-1)            # shape-only mutation
        theta = self.theta.reshape(-1,1)
        ...
        AF = np.sum(self.I * np.exp(1j * self.P + 1j * 2 * np.pi
                      * np.dot(np.sin(np.radians(theta)),self.X)),axis = 1)...
        delta_theta = (theta[1] - theta[0]) * np.pi / 180
        AF_int = 0.5 * np.sum(np.abs(AF)**2 * np.sin(np.radians(theta + 90))) * delta_theta
        AF = AF/ (AF_int ** 0.5)
        if self.element_pattern:
            AF = AF * np.cos(np.radians(theta))
            if self.element_gain:
                AF = AF * 10**(self.element_gain/20)
        return AF.ravel()

Embedding notes.  Arrays are value lists: the `reshape` calls change only
shape metadata, never values, and the one place a reshaped `X` would
matter on a second run (`max(self.X)` in `array_length`) feeds only the
auto-sizing branch, which a second run never takes because the stored
theta grid always contains `-90 ≠ 0` by then.  The scipy window
synthesisers (`get_window`, `taylor`, `chebwin`) are external library
code, passed in as arbitrary fixed functions; the repository's own
dispatch between them is embedded (and is the subject of claim C4).
`AF_int ** 0.5` is `Real.sqrt` (the integrand is nonnegative on the
`[-90, 90]` grids the engine builds), and `x / 0 = 0` in `ℝ` where numpy
would produce `inf` — immaterial to the identities proved here, which
never divide by zero differently on the two sides.  `if self.element_gain:`
is again a truthiness test. -/

/-- Elementwise progressive phase (line 74):
`P = -2π · x · sin(radians(scan_angle))`. -/
noncomputable def linearPhase (scan x : ℝ) : ℝ :=
  -(2 * Real.pi) * x * Real.sin (radians scan)

/-- Value of the vectorised coherent sum of `calc_AF_` (lines 105–106) at
one grid angle `θ` (degrees), for element count `N` and per-element
amplitude/phase/position arrays: the `(angle × element)` outer product
`np.dot(np.sin(np.radians(theta)), X)` contributes `sin(radians θ) · X n`
to the exponent of element `n`. -/
noncomputable def linearAFsum (N : ℕ) (I P X : ℕ → ℝ) (θ : ℝ) : ℂ :=
  ∑ n ∈ Finset.range N, (I n : ℂ) *
    Complex.exp (Complex.I * (P n : ℝ) +
      Complex.I * (2 * Real.pi) * (Real.sin (radians θ) * X n : ℝ))

/-- Modelled from the spec: the reference double-loop definition
`AF(θ) = Σ_n weight(n) · exp(i · [phase(n) + 2π · position(n) · sin θ])`
against which claim C1 compares the vectorised code. -/
noncomputable def linearAFref (N : ℕ) (w phase pos : ℕ → ℝ) (θ : ℝ) : ℂ :=
  ∑ n ∈ Finset.range N, (w n : ℂ) *
    Complex.exp (Complex.I *
      ((phase n + 2 * Real.pi * pos n * Real.sin (radians θ) : ℝ) : ℂ))

/-- The full linear engine state; `P`, `I`, `theta`, `AF` are the
instance attributes `calc_AF` mutates. -/
structure LinArr where
  numElem : ℕ
  scan : ℝ
  theta : List ℝ
  elementPattern : Bool
  window : Option String
  sll : Option ℝ
  elementGain : ℝ
  X : List ℝ
  P : List ℝ
  I : List ℝ
  AF : List ℂ

/-- Truthiness of `any(v)` over the reals. -/
def anyNonzeroR (l : List ℝ) : Prop := ∃ x ∈ l, x ≠ 0

/-- Model of `np.max` over the reals. -/
noncomputable def maxR : List ℝ → ℝ
  | [] => 0
  | x :: xs => xs.foldl max x

/-- Model of `np.min` over the reals. -/
noncomputable def minR : List ℝ → ℝ
  | [] => 0
  | x :: xs => xs.foldl min x

/-- Model of `np.linspace` over the reals. -/
noncomputable def linspaceR (a b : ℝ) (n : ℕ) : List ℝ :=
  (List.range n).map (fun i : ℕ => a + (b - a) * (i : ℝ) / ((n : ℝ) - 1))

/-- Linear auto-sized theta point count over the reals (same formula as
`linearAutoNt`; `int()` truncation is `Int.floor` on the nonnegative
values arising here). -/
noncomputable def linearAutoNtR (L : ℝ) : ℤ :=
  max (oddUpLinear ⌊(180 : ℝ) / (51 / L / 2)⌋) 181

/-- The auto-sized grid `np.linspace(-90, 90, Nt)` built from
`array_length = max(self.X) - min(self.X)`. -/
noncomputable def autoThetaLinR (X : List ℝ) : List ℝ :=
  linspaceR (-90) 90 (linearAutoNtR (maxR X - minR X)).toNat

open Classical in
/-- The theta-defaulting step of `calc_AF` (lines 87–93). -/
noncomputable def thetaStep (theta X : List ℝ) : List ℝ :=
  if anyNonzeroR theta then theta else autoThetaLinR X

open Classical in
/-- Amplitude pipeline of lines 75–83: ones, then `get_window`, then the
SLL-threshold dispatch, with the scipy synthesisers abstract. -/
noncomputable def linearAmps (getWindow : String → ℕ → List ℝ)
    (taylorT : ℕ → ℕ → ℝ → List ℝ) (chebwinT : ℕ → ℝ → List ℝ)
    (window : Option String) (sll : Option ℝ) (numElem xLen : ℕ) : List ℝ :=
  let i0 := List.replicate xLen 1
  let i1 := match window with
    | some w => if w ≠ "" then getWindow w numElem else i0
    | none => i0
  match sll with
  | some s =>
      if s ≠ 0 then (if s < 50 then taylorT numElem 5 s else chebwinT numElem s)
      else i1
  | none => i1

/-- The coherent sum evaluated over a whole theta grid, reading the
per-element arrays positionally (they share one length in every state
`calc_AF` builds). -/
noncomputable def linAFgrid (I P X theta : List ℝ) : List ℂ :=
  theta.map (linearAFsum X.length (fun n => I.getD n 0) (fun n => P.getD n 0)
    (fun n => X.getD n 0))

open Classical in
/-- Lines 105–117 of `calc_AF_`: coherent sum, directivity normalisation
(rectangle rule weighted by `sin(radians(theta + 90))`), then the
optional element pattern and element gain. -/
noncomputable def linAFfull (I P X theta : List ℝ) (ep : Bool) (gain : ℝ) :
    List ℂ :=
  let af0 := linAFgrid I P X theta
  let dt := (theta.getD 1 0 - theta.getD 0 0) * Real.pi / 180
  let afInt := 0.5 *
    ((theta.zip af0).map
      (fun q => Complex.abs q.2 ^ 2 * Real.sin (radians (q.1 + 90)))).sum * dt
  let af1 := af0.map (fun a => a / ((Real.sqrt afInt : ℝ) : ℂ))
  if ep then
    (let afc := (theta.zip af1).map
      (fun q => q.2 * ((Real.cos (radians q.1) : ℝ) : ℂ))
     if gain ≠ 0 then
       afc.map (fun a => a * (((10 : ℝ) ^ ((gain / 20 : ℝ)) : ℝ) : ℂ))
     else afc)
  else af1

/-- One invocation of the `calc_AF` property: recomputes `P` and `I`,
defaults `theta` if it has no nonzero entry, computes `AF`, stores all
four mutated attributes, and returns `AF`. -/
noncomputable def linCalcAF (getWindow : String → ℕ → List ℝ)
    (taylorT : ℕ → ℕ → ℝ → List ℝ) (chebwinT : ℕ → ℝ → List ℝ)
    (s : LinArr) : LinArr × List ℂ :=
  let p := s.X.map (linearPhase s.scan)
  let amps := linearAmps getWindow taylorT chebwinT s.window s.sll s.numElem
    s.X.length
  let th := thetaStep s.theta s.X
  let af := linAFfull amps p s.X th s.elementPattern s.elementGain
  ({ s with P := p, I := amps, theta := th, AF := af }, af)

/-- The planar engine state.  `PlanarArray.calc_AF` (planar_array.py
lines 109–141) dispatches on the stored shape tag: the `'rect'` fast path
sets up separable per-axis tapers/phases and calls `calc_AF_rect` (lines
145–167), every other shape calls the general `calc_AF_` (lines 169–193).
`shape`, `numElemRow`/`numElemCol` (`num_elem[0]`/`num_elem[1]`),
`window`, `sll`, the scan angles, the grids, `row`/`col` and `X`/`Y` are
set at construction and never mutated by `calc_AF`; `rowR`/`colR`
(`row_`/`col_`, value copies of `row`/`col` stored by the rect path),
`Pcol`, `Prow`, `Icol`, `Irow` (rect path) and `Px`, `Py`, `P`, `I`
(general path) and `AF` are the attributes `calc_AF` mutates. -/
structure PlanArr where
  shape : String
  numElemRow : ℕ
  numElemCol : ℕ
  window : Option String
  sll : Option ℝ
  scanT : ℝ
  scanP : ℝ
  theta : List ℝ
  phi : List ℝ
  elementPattern : Bool
  row : List ℝ
  col : List ℝ
  X : List ℝ
  Y : List ℝ
  rowR : List ℝ
  colR : List ℝ
  Pcol : List ℝ
  Prow : List ℝ
  Icol : List ℝ
  Irow : List ℝ
  Px : List ℝ
  Py : List ℝ
  P : List ℝ
  I : List ℝ
  AF : List (List ℂ)

/-- Line 174: `Px = -2π X sin(radians(scanθ)) cos(radians(scanφ))`. -/
noncomputable def planPx (s : PlanArr) : List ℝ :=
  s.X.map (fun x => -(2 * Real.pi) * x * Real.sin (radians s.scanT) *
    Real.cos (radians s.scanP))

/-- Line 175: `Py = -2π Y sin(radians(scanθ)) sin(radians(scanφ))`. -/
noncomputable def planPy (s : PlanArr) : List ℝ :=
  s.Y.map (fun y => -(2 * Real.pi) * y * Real.sin (radians s.scanT) *
    Real.sin (radians s.scanP))

/-- Line 176: `P = Px + Py` elementwise. -/
noncomputable def planP (s : PlanArr) : List ℝ :=
  List.zipWith (fun a b => a + b) (planPx s) (planPy s)

/-- Line 177: `I = np.ones(P.shape)`. -/
noncomputable def planI (s : PlanArr) : List ℝ :=
  List.replicate (planP s).length 1

/-- Line 178: the raw coherent double sum over the `(phi, theta)` grid:
entry `(p, t)` is `Σ_n I_n · exp(i P_n) · exp(i 2π X_n cos p sin t) ·
exp(i 2π Y_n sin p sin t)` (angles in degrees, converted pointwise). -/
noncomputable def planAFraw (s : PlanArr) : List (List ℂ) :=
  s.phi.map (fun p => s.theta.map (fun t =>
    ((List.zip (planI s) (List.zip (planP s) (List.zip s.X s.Y))).map
      (fun q =>
        (q.1 : ℂ) * Complex.exp (Complex.I * (q.2.1 : ℝ)) *
        Complex.exp (Complex.I * ((2 * Real.pi *
          (q.2.2.1 * (Real.cos (radians p) * Real.sin (radians t))) : ℝ))) *
        Complex.exp (Complex.I * ((2 * Real.pi *
          (q.2.2.2 * (Real.sin (radians p) * Real.sin (radians t))) : ℝ))))).sum))

/-- Lines 180–193: clipped element pattern (claim C6's general-path
factor), then the `4π`-referenced normalisation over the 2-D grid. -/
noncomputable def planAFfull (s : PlanArr) : List (List ℂ) :=
  let af0 := planAFraw s
  let af1 := if s.elementPattern then
      af0.map (fun row => (s.theta.zip row).map
        (fun q => q.2 * ((planarGenElemFactor q.1 : ℝ) : ℂ)))
    else af0
  let dt := (s.theta.getD 1 0 - s.theta.getD 0 0) * Real.pi / 180
  let dp := (s.phi.getD 1 0 - s.phi.getD 0 0) * Real.pi / 180
  let afInt := (af1.map (fun row => ((s.theta.zip row).map
      (fun q => Complex.abs q.2 ^ 2 * Real.sin (radians q.1))).sum)).sum *
    dt * dp / 4 / Real.pi
  af1.map (fun row => row.map (fun a => a / ((Real.sqrt afInt : ℝ) : ℂ)))

/-- Line 119: `Pcol = -2π col_ sin(radians(scanθ)) cos(radians(scanφ))`
(the reshape to `col_` changes only shape metadata, not values). -/
noncomputable def planPcol (s : PlanArr) : List ℝ :=
  s.col.map (fun c => -(2 * Real.pi) * c * Real.sin (radians s.scanT) *
    Real.cos (radians s.scanP))

/-- Line 120: `Prow = -2π row_ sin(radians(scanθ)) sin(radians(scanφ))`. -/
noncomputable def planProw (s : PlanArr) : List ℝ :=
  s.row.map (fun r => -(2 * Real.pi) * r * Real.sin (radians s.scanT) *
    Real.sin (radians s.scanP))

/-- Value at grid point `(p, t)` of `AFrow` (line 151): the row-axis
factor `Σ_j Irow_j · exp(i Prow_j + i 2π row_j · SPST[p,t])` with
`SPST = sin(radians p) · sin(radians t)`. -/
noncomputable def rectAFrow (irow prow rowPos : List ℝ) (p t : ℝ) : ℂ :=
  ((List.zip irow (List.zip prow rowPos)).map (fun q =>
    (q.1 : ℂ) * Complex.exp (Complex.I * (q.2.1 : ℝ) +
      Complex.I * (2 * Real.pi) *
        ((q.2.2 * (Real.sin (radians p) * Real.sin (radians t)) : ℝ))))).sum

/-- Value at grid point `(p, t)` of `AFcol` (line 152): the column-axis
factor `Σ_i Icol_i · exp(i Pcol_i + i 2π col_i · CPST[p,t])` with
`CPST = cos(radians p) · sin(radians t)`. -/
noncomputable def rectAFcol (icol pcol colPos : List ℝ) (p t : ℝ) : ℂ :=
  ((List.zip icol (List.zip pcol colPos)).map (fun q =>
    (q.1 : ℂ) * Complex.exp (Complex.I * (q.2.1 : ℝ) +
      Complex.I * (2 * Real.pi) *
        ((q.2.2 * (Real.cos (radians p) * Real.sin (radians t)) : ℝ))))).sum

/-- Lines 146–167 of `calc_AF_rect`: the separable product
`AF = AFrow · AFcol` over the `(phi, theta)` grid, the rect-path clipped
element pattern (claim C6's `cos 89°` factor), then the `4π`-referenced
normalisation. -/
noncomputable def planAFrectFull (irow icol prow pcol : List ℝ) (s : PlanArr) :
    List (List ℂ) :=
  let af0 := s.phi.map (fun p => s.theta.map (fun t =>
    rectAFrow irow prow s.row p t * rectAFcol icol pcol s.col p t))
  let af1 := if s.elementPattern then
      af0.map (fun afRow => (s.theta.zip afRow).map
        (fun q => q.2 * ((planarRectElemFactor q.1 : ℝ) : ℂ)))
    else af0
  let dt := (s.theta.getD 1 0 - s.theta.getD 0 0) * Real.pi / 180
  let dp := (s.phi.getD 1 0 - s.phi.getD 0 0) * Real.pi / 180
  let afInt := (af1.map (fun afRow => ((s.theta.zip afRow).map
      (fun q => Complex.abs q.2 ^ 2 * Real.sin (radians q.1))).sum)).sum *
    dt * dp / 4 / Real.pi
  af1.map (fun afRow => afRow.map (fun a => a / ((Real.sqrt afInt : ℝ) : ℂ)))

/-- One invocation of the planar `calc_AF` property, dispatching on the
stored shape tag exactly as line 112 does.  The `'rect'` path stores the
`row_`/`col_` value copies, the per-axis phases `Pcol`/`Prow`, the
per-axis amplitudes `Icol`/`Irow` (ones, then `get_window`, then the
SLL-threshold dispatch of lines 125–134 — the same pipeline as the
linear engine, applied once per axis with `num_elem[1]`/`num_elem[0]`),
and the `calc_AF_rect` matrix.  Every other shape recomputes
`Px`/`Py`/`P`/`I` and the general `calc_AF_` matrix. -/
noncomputable def planCalcAF (getWindow : String → ℕ → List ℝ)
    (taylorT : ℕ → ℕ → ℝ → List ℝ) (chebwinT : ℕ → ℝ → List ℝ)
    (s : PlanArr) : PlanArr × List (List ℂ) :=
  if s.shape = "rect" then
    let irow := linearAmps getWindow taylorT chebwinT s.window s.sll
      s.numElemRow s.row.length
    let icol := linearAmps getWindow taylorT chebwinT s.window s.sll
      s.numElemCol s.col.length
    let af := planAFrectFull irow icol (planProw s) (planPcol s) s
    ({ s with
        rowR := s.row
        colR := s.col
        Pcol := planPcol s
        Prow := planProw s
        Icol := icol
        Irow := irow
        AF := af }, af)
  else
    ({ s with
        Px := planPx s
        Py := planPy s
        P := planP s
        I := planI s
        AF := planAFfull s }, planAFfull s)

/-! ## Theorems -/

theorem linspaceQ_length (a b : ℚ) (n : ℕ) : (linspaceQ a b n).length = n := by
  rw [linspaceQ, List.length_map, List.length_range]

theorem linspaceQ_head? (a b : ℚ) (n : ℕ) (h : n ≠ 0) :
    (linspaceQ a b n).head? = some a := by
  obtain ⟨m, rfl⟩ := Nat.exists_eq_succ_of_ne_zero h
  simp [linspaceQ, List.range_succ_eq_map]

theorem linspaceQ_getLast? (a b : ℚ) (n : ℕ) (h : 2 ≤ n) :
    (linspaceQ a b n).getLast? = some b := by
  have hn : (linspaceQ a b n).length = n := linspaceQ_length a b n
  have hpos : 0 < n := lt_of_lt_of_le (by norm_num) h
  have h1 : 1 ≤ n := le_trans (by norm_num) h
  have hcast : ((n - 1 : ℕ) : ℚ) = (n : ℚ) - 1 := by
    rw [Nat.cast_sub h1]
    norm_num
  have hne : (n : ℚ) - 1 ≠ 0 := by
    have h2 : (2 : ℚ) ≤ (n : ℚ) := by exact_mod_cast h
    linarith
  rw [List.getLast?_eq_getElem?]
  rw [hn]
  rw [linspaceQ]
  rw [List.getElem?_map]
  rw [List.getElem?_range (Nat.sub_lt hpos (by norm_num))]
  simp only [Option.map_some']
  rw [hcast, mul_div_assoc, div_self hne]
  norm_num

theorem two_mul_floor_le_floor (y : ℚ) : 2 * ⌊y⌋ ≤ ⌊2 * y⌋ := by
  apply Int.le_floor.mpr
  push_cast
  have := Int.floor_le y
  linarith

theorem oddUpLinear_mod (n : ℤ) : oddUpLinear n % 2 = 1 := by
  rw [oddUpLinear]
  split
  · omega
  · omega

theorem oddUpPlanar_mod (n : ℤ) : oddUpPlanar n % 2 = 1 := by
  rw [oddUpPlanar]
  omega

theorem le_oddUpLinear (n : ℤ) : n ≤ oddUpLinear n := by
  rw [oddUpLinear]
  split
  · omega
  · omega

theorem le_oddUpPlanar (n : ℤ) : n ≤ oddUpPlanar n := by
  rw [oddUpPlanar]
  omega

theorem max_odd {a b : ℤ} (ha : a % 2 = 1) (hb : b % 2 = 1) : max a b % 2 = 1 := by
  rcases max_choice a b with h | h <;> rw [h] <;> assumption

theorem linearAutoNt_ge : ∀ L : ℚ, 181 ≤ linearAutoNt L :=
  fun _ => le_max_right _ _

theorem planarAutoNt_ge : ∀ L : ℚ, 181 ≤ planarAutoNt L :=
  fun _ => le_max_right _ _

/-- Claim C5: whenever the caller does not supply a theta grid, the
auto-sized grid has an odd point count, at least 181 points, and at least
two samples per estimated half-beamwidth (`2 * ⌊180° / (51/L)⌋ ≤ Nt`,
where `51/L` degrees is the estimated HPBW for aperture length `L`); the
linear theta grid spans exactly `[-90, 90]`, the planar theta grid spans
`[0, 180]`, and the auto-sized planar phi grid spans `[0, 360]` with
`2 * Nt - 1` points. -/
theorem claim_C5 (L : ℚ) :
    linearAutoNt L % 2 = 1 ∧ 181 ≤ linearAutoNt L ∧
    2 * ⌊(180 : ℚ) / (51 / L)⌋ ≤ linearAutoNt L ∧
    (linearAutoTheta L).head? = some (-90) ∧
    (linearAutoTheta L).getLast? = some 90 ∧
    planarAutoNt L % 2 = 1 ∧ 181 ≤ planarAutoNt L ∧
    2 * ⌊(180 : ℚ) / (51 / L)⌋ ≤ planarAutoNt L ∧
    (planarAutoTheta L).head? = some 0 ∧
    (planarAutoTheta L).getLast? = some 180 ∧
    ((planarAutoPhi L).length : ℤ) = 2 * planarAutoNt L - 1 ∧
    (planarAutoPhi L).head? = some 0 ∧
    (planarAutoPhi L).getLast? = some 360 := by
  have hlin := linearAutoNt_ge L
  have hpla := planarAutoNt_ge L
  have hsampL : 2 * ⌊(180 : ℚ) / (51 / L)⌋ ≤ linearAutoNt L := by
    have he : (180 : ℚ) / (51 / L / 2) = 2 * ((180 : ℚ) / (51 / L)) := by
      rw [div_div_eq_mul_div]
      ring
    calc 2 * ⌊(180 : ℚ) / (51 / L)⌋ ≤ ⌊2 * ((180 : ℚ) / (51 / L))⌋ :=
          two_mul_floor_le_floor _
      _ = ⌊(180 : ℚ) / (51 / L / 2)⌋ := by rw [he]
      _ ≤ oddUpLinear ⌊(180 : ℚ) / (51 / L / 2)⌋ := le_oddUpLinear _
      _ ≤ linearAutoNt L := le_max_left _ _
  have hsampP : 2 * ⌊(180 : ℚ) / (51 / L)⌋ ≤ planarAutoNt L := by
    rcases le_or_lt ⌊(180 : ℚ) / (51 / L)⌋ 0 with h0 | h0
    · omega
    · have hE : (1 : ℚ) ≤ (180 : ℚ) / (51 / L) := by
        have : (1 : ℤ) ≤ ⌊(180 : ℚ) / (51 / L)⌋ := h0
        exact_mod_cast le_trans (by exact_mod_cast this : (1 : ℚ) ≤ (⌊(180 : ℚ) / (51 / L)⌋ : ℚ)) (Int.floor_le _)
      have he : (180 : ℚ) / (51 / L / 4) = 4 * ((180 : ℚ) / (51 / L)) := by
        rw [div_div_eq_mul_div]
        ring
      calc 2 * ⌊(180 : ℚ) / (51 / L)⌋ ≤ ⌊2 * ((180 : ℚ) / (51 / L))⌋ :=
            two_mul_floor_le_floor _
        _ ≤ ⌊4 * ((180 : ℚ) / (51 / L))⌋ := Int.floor_le_floor (by linarith)
        _ = ⌊(180 : ℚ) / (51 / L / 4)⌋ := by rw [he]
        _ ≤ oddUpPlanar ⌊(180 : ℚ) / (51 / L / 4)⌋ := le_oddUpPlanar _
        _ ≤ planarAutoNt L := le_max_left _ _
  refine ⟨max_odd (oddUpLinear_mod _) (by norm_num), hlin, hsampL, ?_, ?_,
    max_odd (oddUpPlanar_mod _) (by norm_num), hpla, hsampP, ?_, ?_, ?_, ?_, ?_⟩
  · exact linspaceQ_head? _ _ _ (by omega)
  · exact linspaceQ_getLast? _ _ _ (by omega)
  · exact linspaceQ_head? _ _ _ (by omega)
  · exact linspaceQ_getLast? _ _ _ (by omega)
  · rw [planarAutoPhi, linspaceQ_length]
    omega
  · exact linspaceQ_head? _ _ _ (by omega)
  · exact linspaceQ_getLast? _ _ _ (by omega)

/-- Claim C4 counterexample: a caller-supplied target `SLL = 0` falls
through Python's `if self.SLL:` truthiness test, so no SLL-derived taper
is selected even though `0 < 50`; the claim as stated demands the Taylor
taper there. -/
theorem claim_C4_counterexample :
    selectTaper none (some 0) = Taper.uniform ∧
    Taper.uniform ≠ Taper.taylor 5 0 := by
  constructor
  · rfl
  · intro h
    exact Taper.noConfusion h

/-- Claim C4 (amended): when a nonzero target SLL is supplied, `calc_AF`
selects the taper by threshold — Taylor with `nbar = 5` for `SLL < 50`,
Dolph–Chebyshev for `SLL ≥ 50` — and this choice overrides any window
name supplied alongside.  (A supplied SLL of exactly 0 is treated as
absent because of Python truthiness.) -/
theorem claim_C4 (w : Option String) (s : ℚ) (hs : s ≠ 0) :
    selectTaper w (some s) =
      if s < 50 then Taper.taylor 5 s else Taper.cheb s := by
  simp [selectTaper, hs]

theorem claim_C4_witness :
    ((30 : ℚ) ≠ 0 ∧ selectTaper (some "hamming") (some 30) = Taper.taylor 5 30) ∧
    ((60 : ℚ) ≠ 0 ∧ selectTaper (some "hamming") (some 60) = Taper.cheb 60) := by
  refine ⟨⟨by norm_num, ?_⟩, ⟨by norm_num, ?_⟩⟩
  · rw [claim_C4 (some "hamming") 30 (by norm_num)]
    norm_num
  · rw [claim_C4 (some "hamming") 60 (by norm_num)]
    norm_num

/-- Claim C10 counterexample: `theta = [0]` is a non-empty caller-supplied
theta grid and phi is left empty, yet construction succeeds — Python's
`not any(theta)` treats the all-zero grid as unsupplied, auto-sizes theta,
binds `Nt`, and the phi default proceeds without a `NameError`. -/
theorem claim_C10_counterexample :
    (planarGridDefaults [0] [] 1).isSome = true := rfl

/-- Claim C10 (amended): for every `PlanarArray` construction in which the
caller supplies a theta grid containing a nonzero entry but a phi grid
with no nonzero entry (in particular the default empty phi), the
constructor raises an unhandled `NameError`, because the phi default reads
`Nt`, which is only bound on the branch where theta was auto-sized.  A
supplied all-zero theta grid is instead treated as absent and auto-sized,
avoiding the error. -/
theorem claim_C10 (theta phi : List ℚ) (L : ℚ)
    (ht : anyNonzeroQ theta = true) (hp : anyNonzeroQ phi = false) :
    planarGridDefaults theta phi L = none := by
  rw [planarGridDefaults, ht, hp]
  rfl

theorem claim_C10_witness :
    anyNonzeroQ [45] = true ∧ anyNonzeroQ ([] : List ℚ) = false ∧
    planarGridDefaults [45] [] 1 = none :=
  ⟨by decide, by decide, claim_C10 [45] [] 1 (by decide) (by decide)⟩

theorem qmod_add_360 (a : ℚ) : qmod (a + 360) 360 = qmod a 360 := by
  rw [qmod, qmod]
  have h : (a + 360) / 360 = a / 360 + 1 := by ring
  rw [h, Int.floor_add_one]
  push_cast
  ring

/-- Claim C8: for every planar array state (theta/phi grids and computed
dB gain matrix) and every real cut angle, `pattern_cut(phi)` and
`pattern_cut(phi + 360)` return identical (theta axis, gain curve) pairs:
the cut angle is reduced mod 360 before any lookup. -/
theorem claim_C8 (theta phi : List ℚ) (G : List (List ℚ)) (c : ℚ) :
    patternCut theta phi G (c + 360) = patternCut theta phi G c := by
  simp only [patternCut, qmod_add_360]

theorem foldl_max_mem (xs : List ℚ) (a : ℚ) :
    xs.foldl max a = a ∨ xs.foldl max a ∈ xs := by
  induction xs generalizing a with
  | nil => left; rfl
  | cons x xs ih =>
    rcases ih (max a x) with h | h
    · rcases max_choice a x with hm | hm
      · left
        rw [List.foldl_cons, h, hm]
      · right
        rw [List.foldl_cons, h, hm]
        exact List.mem_cons_self x xs
    · right
      exact List.mem_cons_of_mem x h

theorem maxQ_mem {l : List ℚ} (h : l ≠ []) : maxQ l ∈ l := by
  cases l with
  | nil => exact absurd rfl h
  | cons x xs =>
    rcases foldl_max_mem xs x with h1 | h1
    · simp only [maxQ]
      rw [h1]
      exact List.mem_cons_self x xs
    · simp only [maxQ]
      exact List.mem_cons_of_mem x h1

theorem argmaxQ_lt_length {l : List ℚ} (h : l ≠ []) : argmaxQ l < l.length := by
  apply List.findIdx_lt_length_of_exists
  exact ⟨maxQ l, maxQ_mem h, by simp⟩

theorem firstIdxEq_of_get? :
    ∀ (l : List ℕ) (j v : ℕ), l.get? j = some v →
      ∃ k, firstIdxEq l v = some k ∧ k ≤ j := by
  intro l
  induction l with
  | nil =>
    intro j v h
    simp at h
  | cons x xs ih =>
    intro j v h
    by_cases hx : x = v
    · exact ⟨0, by simp [firstIdxEq, hx], Nat.zero_le j⟩
    · cases j with
      | zero =>
        rw [List.get?_cons_zero] at h
        exact absurd (Option.some.inj h) hx
      | succ j =>
        rw [List.get?_cons_succ] at h
        obtain ⟨k, hk, hkj⟩ := ih j v h
        refine ⟨k + 1, ?_, Nat.succ_le_succ hkj⟩
        simp [firstIdxEq, hx, hk]

theorem peakCore_singleton (g t hs ss : ℚ) :
    peakCore [g] [t] hs ss = some (g, t, ss, hs) := by
  have harg : argmaxQ [g] = 0 := by
    rw [argmaxQ, List.findIdx_cons]
    simp [maxQ]
  rw [peakCore, if_neg (List.cons_ne_nil g []), harg]
  rfl

/-- Claim C2 counterexample: a strictly increasing gain curve puts the
maximum at the right grid edge, whose crossing is the final entry of
`cs_idx`; the source then evaluates `cs_idx[idx_+1]` outside any `try`
and raises an uncaught `IndexError` (modelled as `none`), contradicting
"never raises an exception". -/
theorem claim_C2_counterexample :
    linearCalcPeakSllHpbw [0, 1, 2] [-1, 0, 1] = none := by decide

/-- Claim C2 (amended): `calc_peak_sll_hpbw` returns without raising
whenever the gain maximum is one of the detected derivative sign-change
crossings and not the final one (in particular the curve and theta axis
are consistent in length); in that flow a failed −3 dB search yields the
sentinel HPBW `0` (linear) / `-1` (planar) and an empty outside-bracket
yields the sentinel SLL `100` (linear) / `-100` (planar), as the
single-sample curves below exhibit for both engines.  When the maximum is
not such a crossing — e.g. it sits at the right grid edge — an uncaught
`IndexError` propagates instead. -/
theorem claim_C2 :
    (∀ (G theta : List ℚ), G ≠ [] → G.length ≤ theta.length →
      (∃ j, (crossingIdx G).get? j = some (argmaxQ G) ∧
        j + 1 < (crossingIdx G).length) →
      (linearCalcPeakSllHpbw G theta).isSome = true) ∧
    (∀ g t : ℚ, linearCalcPeakSllHpbw [g] [t] = some (g, t, 100, 0)) ∧
    (∀ g : ℚ, planarCalcPeakSllHpbw [0] [0, 90] [[g], [g]] 0 =
      some (roundTenth g, 0, -100, -1)) := by
  refine ⟨?_, ?_, ?_⟩
  · rintro G theta hG hlen ⟨j, hj, hjlen⟩
    have hpk : argmaxQ G < theta.length :=
      lt_of_lt_of_le (argmaxQ_lt_length hG) hlen
    obtain ⟨tp, htp⟩ : ∃ tp, theta.get? (argmaxQ G) = some tp := by
      rw [List.get?_eq_get hpk]
      exact ⟨_, rfl⟩
    obtain ⟨k, hk, hkj⟩ := firstIdxEq_of_get? _ _ _ hj
    have hk1 : k + 1 < (crossingIdx G).length := by omega
    obtain ⟨r, hr⟩ : ∃ r, (crossingIdx G).get? (k + 1) = some r := by
      rw [List.get?_eq_get hk1]
      exact ⟨_, rfl⟩
    rw [linearCalcPeakSllHpbw, peakCore, if_neg hG, htp, Option.some_bind,
      hk, Option.some_bind, hr, Option.map_some']
    rfl
  · intro g t
    exact peakCore_singleton g t 0 100
  · intro g
    show (peakCore [g] [0] (-1) (-100)).map
      (fun q => (roundTenth q.1, roundTenth q.2.1, roundTenth q.2.2.1,
        roundTenth q.2.2.2)) = some (roundTenth g, 0, -100, -1)
    rw [peakCore_singleton g 0 (-1) (-100), Option.map_some']
    have h0 : roundTenth 0 = 0 := by decide
    have h100 : roundTenth (-100) = -100 := by decide
    have h1 : roundTenth (-1) = -1 := by decide
    rw [h0, h100, h1]

theorem claim_C2_witness :
    (([0, 1, 0] : List ℚ) ≠ [] ∧
      ([0, 1, 0] : List ℚ).length ≤ ([-1, 0, 1] : List ℚ).length ∧
      (∃ j, (crossingIdx [0, 1, 0]).get? j = some (argmaxQ [0, 1, 0]) ∧
        j + 1 < (crossingIdx [0, 1, 0]).length) ∧
      (linearCalcPeakSllHpbw [0, 1, 0] [-1, 0, 1]).isSome = true) ∧
    linearCalcPeakSllHpbw [7] [3] = some (7, 3, 100, 0) :=
  ⟨⟨by decide, by decide, ⟨1, by decide, by decide⟩,
    claim_C2.1 [0, 1, 0] [-1, 0, 1] (by decide) (by decide)
      ⟨1, by decide, by decide⟩⟩,
   claim_C2.2.1 7 3⟩

theorem sum_map_sub_const (l : List ℚ) (m : ℚ) :
    (l.map (fun x => x - m)).sum = l.sum - l.length * m := by
  induction l with
  | nil => simp
  | cons x xs ih =>
    simp only [List.map_cons, List.sum_cons, ih, List.length_cons]
    push_cast
    ring

theorem meanQ_centerQ (l : List ℚ) (h : l ≠ []) : meanQ (centerQ l) = 0 := by
  have hn : (l.length : ℚ) ≠ 0 := by
    have := List.length_pos.mpr h
    positivity
  rw [meanQ, centerQ, sum_map_sub_const, List.length_map, meanQ]
  rw [mul_div_cancel₀ _ hn]
  simp

/-- Claim C3 counterexample: the planar constructor does not re-center.
For `('rect', [2,1], [1,1])` the stored `self.Y` is `[0, 1]`, whose mean
is `1/2 ≠ 0`, contradicting the zero-mean invariant claimed for every
successful construction. -/
theorem claim_C3_counterexample :
    (planarInit (ArrayShape.rect (2, 1) (1, 1))).map (fun p => meanR p.2) =
      Except.ok (1 / 2) ∧ ((1 : ℝ) / 2) ≠ 0 := by
  constructor
  · show Except.ok (meanR (rectTriXY 0 (2, 1) (1, 1)).2) = Except.ok (1 / 2)
    have hY : (rectTriXY 0 (2, 1) (1, 1)).2 = [0, 1] := by
      show [((0 : ℕ) : ℝ) * 1, ((1 : ℕ) : ℝ) * 1] = [0, 1]
      norm_num
    rw [hY, meanR]
    norm_num
  · norm_num

/-- Claim C3 (amended): every successful `LinearArray` construction
(uniform scalar spacing or explicit spacing deltas) stores zero-mean
element positions; the `PlanarArray` constructor, by contrast, never
re-centers its stored positions (centering there happens only in the
plotting code). -/
theorem claim_C3 (n : ℤ) (sp : LinSpacing) (X : List ℚ)
    (h : linearInit n sp = Except.ok X) : meanQ X = 0 := by
  cases sp with
  | scalar d =>
    simp only [linearInit] at h
    by_cases hn : n ≤ 0
    · rw [if_pos hn] at h
      exact absurd h (by simp)
    · rw [if_neg hn] at h
      by_cases hd : d ≤ 0
      · rw [if_pos hd] at h
        exact absurd h (by simp)
      · rw [if_neg hd] at h
        obtain rfl := Except.ok.inj h
        apply meanQ_centerQ
        rw [Ne, List.map_eq_nil_iff, List.range_eq_nil]
        omega
  | deltas l =>
    simp only [linearInit] at h
    by_cases hn : n ≤ 0
    · rw [if_pos hn] at h
      exact absurd h (by simp)
    · rw [if_neg hn] at h
      obtain rfl := Except.ok.inj h
      exact meanQ_centerQ _ (List.cons_ne_nil _ _)

theorem claim_C3_witness :
    linearInit 3 (LinSpacing.scalar 1) = Except.ok [-1, 0, 1] ∧
    meanQ [-1, 0, 1] = 0 :=
  ⟨by rfl, claim_C3 3 (LinSpacing.scalar 1) [-1, 0, 1] (by rfl)⟩

/-- Claim C7 counterexample: invalid configurations that the claim says
must fail fast are accepted — a planar rectangular grid with zero element
spacings constructs successfully (the planar constructor never validates
spacing), and a linear array with explicit non-positive spacing deltas
constructs successfully (the iterable branch has no validation). -/
theorem claim_C7_counterexample :
    exceptOk (planarInit (ArrayShape.rect (2, 2) (0, 0))) = true ∧
    exceptOk (linearInit 3 (LinSpacing.deltas [-1, 0])) = true := by
  constructor
  · rfl
  · rfl

/-- Claim C7 (amended): construction fails fast for a non-positive
element count (both engines; per axis for `rect`/`tri`), for a
non-positive *uniform scalar* spacing in the linear engine, and for an
invalid planar shape tag.  It does not validate planar spacings, linear
explicit spacing deltas, or custom coordinates (see the
counterexample). -/
theorem claim_C7 :
    (∀ (n : ℤ) (sp : LinSpacing), n ≤ 0 → exceptOk (linearInit n sp) = false) ∧
    (∀ (n : ℤ) (d : ℚ), 0 < n → d ≤ 0 →
      exceptOk (linearInit n (LinSpacing.scalar d)) = false) ∧
    (∀ (ne : ℤ × ℤ) (sp : ℝ × ℝ), ne.1 ≤ 0 ∨ ne.2 ≤ 0 →
      exceptOk (planarInit (ArrayShape.rect ne sp)) = false ∧
      exceptOk (planarInit (ArrayShape.tri ne sp)) = false) ∧
    (∀ t : String, exceptOk (planarInit (ArrayShape.badTag t)) = false) := by
  refine ⟨?_, ?_, ?_, ?_⟩
  · intro n sp hn
    cases sp with
    | scalar d =>
      simp only [linearInit]
      rw [if_pos hn]
      rfl
    | deltas l =>
      simp only [linearInit]
      rw [if_pos hn]
      rfl
  · intro n d hn hd
    simp only [linearInit]
    rw [if_neg (by omega : ¬ n ≤ 0), if_pos hd]
    rfl
  · intro ne sp hne
    rcases le_or_lt ne.1 0 with h1 | h1
    · constructor
      · rw [planarInit, if_pos h1]
        rfl
      · rw [planarInit, if_pos h1]
        rfl
    · have h2 : ne.2 ≤ 0 := by
        rcases hne with h | h
        · omega
        · exact h
      constructor
      · rw [planarInit, if_neg (by omega : ¬ ne.1 ≤ 0), if_pos h2]
        rfl
      · rw [planarInit, if_neg (by omega : ¬ ne.1 ≤ 0), if_pos h2]
        rfl
  · intro t
    rfl

theorem claim_C7_witness :
    exceptOk (linearInit 0 (LinSpacing.scalar 1)) = false ∧
    exceptOk (linearInit 2 (LinSpacing.scalar 0)) = false ∧
    exceptOk (planarInit (ArrayShape.rect (0, 4) (1 / 2, 1 / 2))) = false ∧
    exceptOk (planarInit (ArrayShape.badTag "hex")) = false :=
  ⟨claim_C7.1 0 (LinSpacing.scalar 1) (by norm_num),
   claim_C7.2.1 2 0 (by norm_num) le_rfl,
   (claim_C7.2.2.1 (0, 4) (1 / 2, 1 / 2) (Or.inl (by norm_num))).1,
   claim_C7.2.2.2 "hex"⟩

theorem cos_radians_pos {x : ℝ} (h0 : 0 ≤ x) (h1 : x < 90) :
    0 < Real.cos (radians x) := by
  have hpi := Real.pi_pos
  apply Real.cos_pos_of_mem_Ioo
  constructor
  · rw [radians]
    nlinarith
  · rw [radians]
    nlinarith

theorem cos_radians_anti {x y : ℝ} (h0 : 0 ≤ x) (hxy : x ≤ y) (hy : y ≤ 180) :
    Real.cos (radians y) ≤ Real.cos (radians x) := by
  have hpi := Real.pi_pos
  apply Real.cos_le_cos_of_nonneg_of_le_pi
  · rw [radians]
    positivity
  · rw [radians]
    nlinarith
  · rw [radians, radians]
    nlinarith

/-- Claim C6 counterexample: at `theta = 90°` the linear engine's
element-pattern multiplier is exactly `cos 90° = 0` — the claimed
clipping (holding the factor at the positive value `cos 89°`, as the
planar paths do) is absent from the linear engine. -/
theorem claim_C6_counterexample :
    linearElemFactor 90 = 0 ∧ 0 < planarRectElemFactor 90 ∧
    0 < planarGenElemFactor 90 := by
  have h90 : radians 90 = Real.pi / 2 := by
    rw [radians]
    ring
  refine ⟨?_, ?_, ?_⟩
  · rw [linearElemFactor, h90, Real.cos_pi_div_two]
  · rw [planarRectElemFactor, if_pos (by norm_num : (89 : ℝ) < 90)]
    exact cos_radians_pos (by norm_num) (by norm_num)
  · rw [planarGenElemFactor, if_pos (by norm_num : (89 : ℝ) < 90)]
    exact cos_radians_pos (by norm_num) (by norm_num)

/-- Claim C6 (amended): only the planar engines clip the cosine
element-pattern multiplier — the rectangular path holds it at `cos 89°`
and the general path at `cos 89.5°` for `theta > 89°`, so over the whole
planar grid `theta ∈ [0°, 180°]` the multiplier stays at or above those
strictly positive constants and never becomes a near-zero (or negative)
factor.  The linear engine multiplies by the unclipped `cos theta`
(zero at `theta = 90°`, see the counterexample). -/
theorem claim_C6 (θ : ℝ) (h0 : 0 ≤ θ) (h1 : θ ≤ 180) :
    Real.cos (radians 89) ≤ planarRectElemFactor θ ∧
    Real.cos (radians 89.5) ≤ planarGenElemFactor θ ∧
    0 < Real.cos (radians 89) ∧ 0 < Real.cos (radians 89.5) := by
  refine ⟨?_, ?_, cos_radians_pos (by norm_num) (by norm_num),
    cos_radians_pos (by norm_num) (by norm_num)⟩
  · rw [planarRectElemFactor]
    split
    · exact le_rfl
    · next h =>
        exact cos_radians_anti h0 (by linarith [not_lt.mp h]) (by norm_num)
  · rw [planarGenElemFactor]
    split
    · exact le_rfl
    · next h =>
        exact cos_radians_anti h0 (by linarith [not_lt.mp h]) (by norm_num)

theorem claim_C6_witness :
    (0 : ℝ) ≤ 90 ∧ (90 : ℝ) ≤ 180 ∧
    (Real.cos (radians 89) ≤ planarRectElemFactor 90 ∧
     Real.cos (radians 89.5) ≤ planarGenElemFactor 90 ∧
     0 < Real.cos (radians 89) ∧ 0 < Real.cos (radians 89.5)) :=
  ⟨by norm_num, by norm_num, claim_C6 90 (by norm_num) (by norm_num)⟩

/-- Claim C1: for a linear array the computed complex AF (before
directivity normalisation and element-pattern multiplication) equals, at
every angle of the grid, the reference double-loop definition
`AF(θ) = Σ_n weight(n) · exp(i · [phase(n) + 2π · position(n) · sin θ])`
with the progressive phase `phase(n) = -2π · position(n) · sin(scan)`,
for every element count, position array, amplitude array, scan angle and
theta grid. -/
theorem claim_C1 (N : ℕ) (X I : ℕ → ℝ) (scan : ℝ) (thetaGrid : List ℝ) :
    thetaGrid.map (linearAFsum N I (fun n => linearPhase scan (X n)) X) =
      thetaGrid.map (linearAFref N I
        (fun n => -(2 * Real.pi) * X n * Real.sin (radians scan)) X) := by
  have hfun : linearAFsum N I (fun n => linearPhase scan (X n)) X =
      linearAFref N I
        (fun n => -(2 * Real.pi) * X n * Real.sin (radians scan)) X := by
    funext θ
    rw [linearAFsum, linearAFref]
    apply Finset.sum_congr rfl
    intro n _
    congr 1
    rw [linearPhase]
    push_cast
    ring_nf
  rw [hfun]

theorem autoThetaLinR_nonzero (X : List ℝ) : anyNonzeroR (autoThetaLinR X) := by
  have hn : (linearAutoNtR (maxR X - minR X)).toNat ≠ 0 := by
    have h181 : (181 : ℤ) ≤ linearAutoNtR (maxR X - minR X) := le_max_right _ _
    omega
  obtain ⟨m, hm⟩ := Nat.exists_eq_succ_of_ne_zero hn
  rw [autoThetaLinR, linspaceR, hm, List.range_succ_eq_map, List.map_cons]
  refine ⟨_, List.mem_cons_self _ _, ?_⟩
  simp only [Nat.cast_zero, mul_zero, zero_div, add_zero]
  norm_num

theorem thetaStep_idem (theta X : List ℝ) :
    thetaStep (thetaStep theta X) X = thetaStep theta X := by
  by_cases h : anyNonzeroR theta
  · have h1 : thetaStep theta X = theta := by
      rw [thetaStep]
      exact if_pos h
    rw [h1]
    exact h1
  · have h1 : thetaStep theta X = autoThetaLinR X := by
      rw [thetaStep]
      exact if_neg h
    rw [h1]
    rw [thetaStep]
    exact if_pos (autoThetaLinR_nonzero X)

/-- Claim C9: the AF computation is deterministic and idempotent.  In
this functional embedding determinism on identical inputs is definitional
(`linCalcAF` and `planCalcAF` are functions of the state); the substantive
content is idempotence under the attribute mutations: a second invocation
on the state mutated by the first (`P`/`I`/`theta`/`AF` stored by the
linear engine; `row_`/`col_`/`Pcol`/`Prow`/`Icol`/`Irow`/`AF` stored by
the planar `'rect'` fast path, `Px`/`Py`/`P`/`I`/`AF` by the planar
general path; `X` is only reshaped, never changed in value) returns the
same AF and leaves the same state, for every starting state of either
engine, every planar shape tag, and every choice of the external scipy
window synthesisers. -/
theorem claim_C9 :
    (∀ (gw : String → ℕ → List ℝ) (tay : ℕ → ℕ → ℝ → List ℝ)
        (cheb : ℕ → ℝ → List ℝ) (s : LinArr),
      linCalcAF gw tay cheb (linCalcAF gw tay cheb s).1 =
        linCalcAF gw tay cheb s) ∧
    (∀ (gw : String → ℕ → List ℝ) (tay : ℕ → ℕ → ℝ → List ℝ)
        (cheb : ℕ → ℝ → List ℝ) (s : PlanArr),
      planCalcAF gw tay cheb (planCalcAF gw tay cheb s).1 =
        planCalcAF gw tay cheb s) := by
  constructor
  · intro gw tay cheb s
    have hth := thetaStep_idem s.theta s.X
    simp only [linCalcAF]
    rw [hth]
  · intro gw tay cheb s
    by_cases hs : s.shape = "rect"
    · simp only [planCalcAF, if_pos hs]
      rfl
    · simp only [planCalcAF, if_neg hs]
      rfl

end AntennaArray
